import Mathlib

/-!
Verification of `scripts/ai-reviewer/review-agent.py`.

The script is a single-shot pipeline: look up a pull request, build a prompt
from a standards document and the PR diff, call a language model, then parse
the model's raw text response and apply it to the pull request as line
comments, with a catch-all fallback that posts the raw text as one issue
comment when anything in the applier raises.

The embedding below models Python strings as `String`/`List Char`, the
external JSON decoder (`json.loads`) as an executable recursive-descent
parser over a JSON value type restricted to integer numerals, the `int()`
coercion, Python `dict` lookup and iteration, and the GitHub API as a trace
of actions together with an environment (`ApiEnv`) choosing which remote
calls succeed.  Exceptions are modelled with `Except`/`Option PyErr`.
-/

namespace ReviewAgent

/-- Errors a modelled Python operation can raise. -/
inductive PyErr where
  | jsonError (msg : String)
  | keyError (k : String)
  | typeError
  | valueError
  | apiError
  | indexError
deriving DecidableEq

/-- Rendering of an exception used in the `print(f"Error parsing AI response: {e}")`
diagnostic line. -/
def errText : PyErr → String
  | .jsonError m => m
  | .keyError k => "KeyError: " ++ k
  | .typeError => "TypeError"
  | .valueError => "ValueError"
  | .apiError => "GithubException"
  | .indexError => "IndexError"

/-- Python `str.strip` whitespace class (space, tab, newline, carriage return,
vertical tab, form feed). -/
def pyIsSpace (c : Char) : Bool :=
  c == ' ' || c == '\t' || c == '\n' || c == '\r' || c == Char.ofNat 11 || c == Char.ofNat 12

/-- Model of Python `str.strip()` on a character list. -/
def pyStrip (l : List Char) : List Char :=
  ((l.dropWhile pyIsSpace).reverse.dropWhile pyIsSpace).reverse

/-- `occursAt sep l i` means the substring `sep` occurs in `l` starting at index `i`. -/
def occursAt (sep l : List Char) (i : Nat) : Prop :=
  sep.isPrefixOf (l.drop i) = true

instance (sep l : List Char) (i : Nat) : Decidable (occursAt sep l i) := by
  unfold occursAt; infer_instance

/-- Index of the first occurrence of `sep` in `l`, if any. -/
def findOcc (sep : List Char) : List Char → Option Nat
  | [] => if sep.isPrefixOf ([] : List Char) then some 0 else none
  | c :: cs =>
    if sep.isPrefixOf (c :: cs) then some 0
    else (findOcc sep cs).map (· + 1)

/-- Model of Python `s.split(sep)[0]` for a non-empty separator: the prefix of
`l` before the first occurrence of `sep`, or all of `l` when `sep` does not occur. -/
def splitHead (sep l : List Char) : List Char :=
  match findOcc sep l with
  | some i => l.take i
  | none => l

/-- Model of Python `sep in l` (substring containment). -/
def containsSub (sep l : List Char) : Bool :=
  (findOcc sep l).isSome

/-- The literal split separator `"ACTION:"` from the script. -/
def actionChars : List Char := ("ACTION:").data

/-- The literal handoff marker `"READY_FOR_HUMAN_REVIEW"` from the script. -/
def markerChars : List Char := ("READY_FOR_HUMAN_REVIEW").data

/-- JSON values as produced by the decoder.  Numerals are restricted to
integers: the script's protocol only ever uses integer line numbers, and no
claim involves floating-point numerals. -/
inductive Json where
  | null
  | bool (b : Bool)
  | num (n : Int)
  | str (s : String)
  | arr (elems : List Json)
  | obj (fields : List (String × Json))

/-- JSON whitespace accepted between tokens. -/
def jsonWs (c : Char) : Bool :=
  c == ' ' || c == '\t' || c == '\n' || c == '\r'

/-- Skip JSON whitespace. -/
def skipWs (l : List Char) : List Char := l.dropWhile jsonWs

/-- Hex digit value, for `\u` escapes. -/
def hexVal (c : Char) : Option Nat :=
  if c.isDigit then some (c.toNat - 48)
  else if 'a' ≤ c && c ≤ 'f' then some (c.toNat - 87)
  else if 'A' ≤ c && c ≤ 'F' then some (c.toNat - 55)
  else none

/-- Body of a JSON string literal, after the opening quote: returns the decoded
characters and the input following the closing quote.  `\u` escapes outside the
basic plane (surrogate pairs) are decoded code-unit-wise. -/
def parseStringBody (acc : List Char) : List Char → Except PyErr (List Char × List Char)
  | [] => .error (.jsonError "Unterminated string")
  | '"' :: rest => .ok (acc.reverse, rest)
  | '\\' :: 'u' :: h1 :: h2 :: h3 :: h4 :: rest =>
    match hexVal h1, hexVal h2, hexVal h3, hexVal h4 with
    | some a, some b, some c, some d =>
      parseStringBody (Char.ofNat (((a * 16 + b) * 16 + c) * 16 + d) :: acc) rest
    | _, _, _, _ => .error (.jsonError "Invalid \\u escape")
  | '\\' :: e :: rest =>
    if e == '"' then parseStringBody ('"' :: acc) rest
    else if e == '\\' then parseStringBody ('\\' :: acc) rest
    else if e == '/' then parseStringBody ('/' :: acc) rest
    else if e == 'b' then parseStringBody (Char.ofNat 8 :: acc) rest
    else if e == 'f' then parseStringBody (Char.ofNat 12 :: acc) rest
    else if e == 'n' then parseStringBody ('\n' :: acc) rest
    else if e == 'r' then parseStringBody ('\r' :: acc) rest
    else if e == 't' then parseStringBody ('\t' :: acc) rest
    else .error (.jsonError "Invalid escape")
  | c :: rest =>
    if c.toNat < 32 then .error (.jsonError "Control character in string")
    else parseStringBody (c :: acc) rest

/-- Numeric value of a digit list, most significant first. -/
def digitsVal (ds : List Char) : Nat :=
  ds.foldl (fun a c => a * 10 + (c.toNat - 48)) 0

/-- Unsigned integer numeral: JSON forbids leading zeros, and this model
rejects fraction/exponent parts (floats are outside the modelled subset). -/
def parseNat : List Char → Except PyErr (Nat × List Char)
  | [] => .error (.jsonError "Expecting value")
  | c :: rest =>
    if c == '0' then
      match rest with
      | d :: _ =>
        if d.isDigit then .error (.jsonError "Extra data")
        else if d == '.' || d == 'e' || d == 'E' then .error (.jsonError "float unsupported")
        else .ok (0, rest)
      | [] => .ok (0, rest)
    else if c.isDigit then
      let ds := (c :: rest).takeWhile Char.isDigit
      let r := (c :: rest).dropWhile Char.isDigit
      match r with
      | d :: _ =>
        if d == '.' || d == 'e' || d == 'E' then .error (.jsonError "float unsupported")
        else .ok (digitsVal ds, r)
      | [] => .ok (digitsVal ds, r)
    else .error (.jsonError "Expecting value")

/-- Signed integer numeral. -/
def parseNumber (l : List Char) : Except PyErr (Json × List Char) :=
  match l with
  | '-' :: rest =>
    match parseNat rest with
    | .ok (n, r) => .ok (.num (-(n : Int)), r)
    | .error e => .error e
  | _ =>
    match parseNat l with
    | .ok (n, r) => .ok (.num ((n : Int)), r)
    | .error e => .error e

mutual

/-- One JSON value, fuel-bounded recursive descent. -/
def parseValue : Nat → List Char → Except PyErr (Json × List Char)
  | 0, _ => .error (.jsonError "Nesting too deep")
  | Nat.succ f, s =>
    match skipWs s with
    | 'n' :: 'u' :: 'l' :: 'l' :: rest => .ok (.null, rest)
    | 't' :: 'r' :: 'u' :: 'e' :: rest => .ok (.bool true, rest)
    | 'f' :: 'a' :: 'l' :: 's' :: 'e' :: rest => .ok (.bool false, rest)
    | '"' :: rest =>
      match parseStringBody [] rest with
      | .ok (cs, r) => .ok (.str (String.mk cs), r)
      | .error e => .error e
    | '[' :: rest =>
      match skipWs rest with
      | ']' :: r2 => .ok (.arr [], r2)
      | r2 =>
        match parseItems f r2 with
        | .ok (xs, r3) => .ok (.arr xs, r3)
        | .error e => .error e
    | '{' :: rest =>
      match skipWs rest with
      | '}' :: r2 => .ok (.obj [], r2)
      | r2 =>
        match parseFields f r2 with
        | .ok (kvs, r3) => .ok (.obj kvs, r3)
        | .error e => .error e
    | rest => parseNumber rest

/-- Comma-separated array items up to the closing bracket. -/
def parseItems : Nat → List Char → Except PyErr (List Json × List Char)
  | 0, _ => .error (.jsonError "Nesting too deep")
  | Nat.succ f, s =>
    match parseValue f s with
    | .error e => .error e
    | .ok (v, rest) =>
      match skipWs rest with
      | ',' :: r2 =>
        match parseItems f r2 with
        | .ok (xs, r3) => .ok (v :: xs, r3)
        | .error e => .error e
      | ']' :: r2 => .ok ([v], r2)
      | _ => .error (.jsonError "Expecting comma or bracket")

/-- Comma-separated object members up to the closing brace. -/
def parseFields : Nat → List Char → Except PyErr (List (String × Json) × List Char)
  | 0, _ => .error (.jsonError "Nesting too deep")
  | Nat.succ f, s =>
    match skipWs s with
    | '"' :: rest =>
      match parseStringBody [] rest with
      | .error e => .error e
      | .ok (k, r1) =>
        match skipWs r1 with
        | ':' :: r2 =>
          match parseValue f r2 with
          | .error e => .error e
          | .ok (v, r3) =>
            match skipWs r3 with
            | ',' :: r4 =>
              match parseFields f r4 with
              | .ok (kvs, r5) => .ok ((String.mk k, v) :: kvs, r5)
              | .error e => .error e
            | '}' :: r4 => .ok ([(String.mk k, v)], r4)
            | _ => .error (.jsonError "Expecting comma or brace")
        | _ => .error (.jsonError "Expecting colon")
    | _ => .error (.jsonError "Expecting property name")

end

/-- Model of Python `json.loads`: parse one JSON document and require that only
whitespace follows it. -/
def jsonLoads (l : List Char) : Except PyErr Json :=
  match parseValue (l.length + 1) l with
  | .error e => .error e
  | .ok (v, rest) =>
    if skipWs rest = [] then .ok v else .error (.jsonError "Extra data")

/-- Python `int(s)` on an already-stripped character list: an optional sign
followed by a non-empty run of ASCII digits; anything else raises
`ValueError`. -/
def pyIntChars : List Char → Except PyErr Int
  | [] => .error .valueError
  | c :: ds =>
    if c == '-' then
      if ds ≠ [] ∧ ds.all Char.isDigit then .ok (-(digitsVal ds : Int))
      else .error .valueError
    else if c == '+' then
      if ds ≠ [] ∧ ds.all Char.isDigit then .ok ((digitsVal ds : Int))
      else .error .valueError
    else if (c :: ds).all Char.isDigit then .ok ((digitsVal (c :: ds) : Int))
    else .error .valueError

/-- Model of Python `int(v)` applied to a decoded JSON value: integers pass
through, booleans coerce to 0/1, strings are accepted when, after stripping
whitespace, they are an optionally signed run of ASCII digits, and every other
value raises `TypeError`.  (CPython also accepts digit-group underscores and
non-ASCII decimal digits; those are outside the modelled subset.) -/
def pyInt : Json → Except PyErr Int
  | .num n => .ok n
  | .bool b => .ok (if b then 1 else 0)
  | .str s => pyIntChars (pyStrip s.data)
  | _ => .error .typeError

/-- Model of Python `v[k]` for a string key: dictionary lookup (duplicate keys
last-wins, as `json.loads` builds dicts), `KeyError` when the key is missing,
`TypeError` when `v` is not a dictionary. -/
def getItem (v : Json) (k : String) : Except PyErr Json :=
  match v with
  | .obj kvs =>
    match kvs.reverse.find? (fun p => p.1 == k) with
    | some p => .ok p.2
    | none => .error (.keyError k)
  | _ => .error .typeError

/-- Model of Python `for c in v`: lists yield their elements, dicts their keys,
strings their characters; other values raise `TypeError`. -/
def pyIterate : Json → Except PyErr (List Json)
  | .arr xs => .ok xs
  | .obj kvs => .ok (kvs.map (fun p => Json.str p.1))
  | .str s => .ok (s.data.map (fun c => Json.str (String.mk [c])))
  | _ => .error .typeError

/-- One successfully executed GitHub API mutation, in call order. -/
inductive Action where
  | createReviewComment (body : Json) (commit : String) (path : Json) (line : Int)
  | addToAssignees (user : String)
  | createIssueComment (body : String)

/-- Environment of remote-call outcomes: which `create_review_comment` calls
succeed (by call index), and whether the assignment, handoff-comment and
fallback-comment calls succeed. -/
structure ApiEnv where
  reviewOk : Nat → Bool
  assignOk : Bool
  handoffOk : Bool
  fallbackOk : Bool

/-- Environment in which every remote call succeeds. -/
def envAllOk : ApiEnv := ⟨fun _ => true, true, true, true⟩

/-- Keyword-argument evaluation for one loop iteration of the script:
`c['comment']`, `c['path']`, `int(c['line'])`, in Python's left-to-right
evaluation order. -/
def evalArgs (c : Json) : Except PyErr (Json × Json × Int) :=
  match getItem c "comment" with
  | .error e => .error e
  | .ok body =>
    match getItem c "path" with
    | .error e => .error e
    | .ok path =>
      match getItem c "line" with
      | .error e => .error e
      | .ok lineV =>
        match pyInt lineV with
        | .error e => .error e
        | .ok line => .ok (body, path, line)

/-- The `for c in comments` loop: posts one review comment per entry, stopping
at the first raised exception; returns the actions performed and the exception,
if any.  `k` is the index of the next `create_review_comment` call in `env`. -/
def postLoop (env : ApiEnv) (commit : String) : List Json → Nat → List Action × Option PyErr
  | [], _ => ([], none)
  | c :: rest, k =>
    match evalArgs c with
    | .error e => ([], some e)
    | .ok (body, path, line) =>
      if env.reviewOk k then
        let r := postLoop env commit rest (k + 1)
        (Action.createReviewComment body commit path line :: r.1, r.2)
      else ([], some .apiError)

/-- The candidate JSON payload: `raw_response.split("ACTION:")[0].strip()`. -/
def candidatePayload (raw : List Char) : List Char :=
  pyStrip (splitHead actionChars raw)

/-- Body text of the handoff comment,
`f"AI Review complete. Reassigning to @{HUMAN_REVIEWER} for final sign-off."`. -/
def handoffBody (human : String) : String :=
  "AI Review complete. Reassigning to @" ++ human ++ " for final sign-off."

/-- The `try` block of `apply_line_comments`: parse the payload, post the line
comments, then, when the marker occurs in the raw response, assign the human
reviewer and post the handoff comment.  Returns the actions performed and the
exception that escaped the block, if any. -/
def tryBranch (env : ApiEnv) (human raw commit : String) : List Action × Option PyErr :=
  match jsonLoads (candidatePayload raw.data) with
  | .error e => ([], some e)
  | .ok comments =>
    match pyIterate comments with
    | .error e => ([], some e)
    | .ok items =>
      match postLoop env commit items 0 with
      | (acts, some e) => (acts, some e)
      | (acts, none) =>
        if containsSub markerChars raw.data then
          if env.assignOk then
            if env.handoffOk then
              (acts ++ [Action.addToAssignees human,
                        Action.createIssueComment (handoffBody human)], none)
            else (acts ++ [Action.addToAssignees human], some .apiError)
          else (acts, some .apiError)
        else (acts, none)

/-- Observable outcome of `apply_line_comments`: API mutations performed,
diagnostic lines printed, and the exception that escaped the function, if any. -/
structure RunResult where
  actions : List Action
  stderr : List String
  uncaught : Option PyErr

/-- `apply_line_comments(raw_response, commit)`: run the `try` block; on any
exception print the diagnostic line and post the whole raw response as one
issue comment prefixed `"AI Review Error: "` (the fallback call itself may
raise, in which case its exception escapes uncaught). -/
def apply_line_comments (env : ApiEnv) (human raw commit : String) : RunResult :=
  match tryBranch env human raw commit with
  | (acts, none) => ⟨acts, [], none⟩
  | (acts, some e) =>
    let msg := "Error parsing AI response: " ++ errText e
    if env.fallbackOk then
      ⟨acts ++ [Action.createIssueComment ("AI Review Error: " ++ raw)], [msg], none⟩
    else ⟨acts, [msg], some .apiError⟩

/-- External world for the generator stage: whether the pull-request lookup
succeeds, the standards document text, the pull request's commit history (in
history order, identified by sha), the compare-API file list as
(filename, patch) pairs in service order, and the language model as a function
from prompt to response text. -/
structure World where
  prExists : Bool
  standards : String
  commits : List String
  files : List (String × String)
  modelResponse : String → String

/-- The diff blob built by the `for file in comparison.files` loop:
`diff_content += f"File: {file.filename}\n{file.patch}\n\n"`. -/
def diff_content (files : List (String × String)) : String :=
  files.foldl (fun acc f => acc ++ "File: " ++ f.1 ++ "\n" ++ f.2 ++ "\n\n") ""

/-- The block contributed to the diff blob by one changed file: its name
followed by its patch text. -/
def fileBlock (f : String × String) : String :=
  "File: " ++ f.1 ++ "\n" ++ f.2 ++ "\n\n"

/-- Specification-side description of the diff blob: the concatenation, over
the changed files in service order, of the per-file blocks. -/
def concatBlocks (files : List (String × String)) : String :=
  (files.map fileBlock).foldr (fun a b => a ++ b) ""

/-- The prompt template, with the standards text and diff blob interpolated. -/
def buildPrompt (standards diff : String) : String :=
  "\n    Review this PR for the Flutter IntelliJ plugin based on these standards:\n    "
    ++ standards
    ++ "\n\n    PR DIFF:\n    "
    ++ diff
    ++ "\n\n    INSTRUCTIONS:\n    Return your review as a JSON list of objects. Each object MUST have:\n    \"path\": (the file path),\n    \"line\": (the line number in the new code),\n    \"comment\": (your feedback).\n\n    If no issues are found, return an empty list [].\n    Finally, append the string \"ACTION: READY_FOR_HUMAN_REVIEW\" at the very end outside the JSON.\n    "

/-- `get_line_specific_review()`: read the latest commit via
`pr.get_commits().reversed[0]` (IndexError on an empty history), build the
diff blob and prompt, call the model, and return the response text with the
commit. -/
def get_line_specific_review (w : World) : Except PyErr (String × String) :=
  match (w.commits.reverse).head? with
  | none => .error .indexError
  | some latest =>
    let prompt := buildPrompt w.standards (diff_content w.files)
    .ok (w.modelResponse prompt, latest)

/-- Observable outcome of one whole script run: the prompts sent to the
language model, the applier outcome when that stage was reached, and the
uncaught exception terminating the process, if any. -/
structure ScriptResult where
  llmPrompts : List String
  applied : Option RunResult
  uncaught : Option PyErr

/-- The `__main__` flow, including the module-level `repo.get_pull(PR_NUMBER)`
lookup that precedes everything: a failed lookup terminates the run before the
generator stage; otherwise the generator output feeds `apply_line_comments`. -/
def script (w : World) (env : ApiEnv) (human : String) : ScriptResult :=
  if w.prExists then
    match get_line_specific_review w with
    | .error e => ⟨[], none, some e⟩
    | .ok (raw, latest) =>
      let r := apply_line_comments env human raw latest
      ⟨[buildPrompt w.standards (diff_content w.files)], some r, r.uncaught⟩
  else ⟨[], none, some .apiError⟩

/-- Does an action assign someone to the pull request? -/
def isAssignAction : Action → Bool
  | .addToAssignees _ => true
  | _ => false

/-- Is an action a plain (issue-level) comment? -/
def isIssueAction : Action → Bool
  | .createIssueComment _ => true
  | _ => false

/-- The line-level review-comment calls in a trace, with their
(body, commit, path, line) arguments, in call order. -/
def lineCalls (l : List Action) : List (Json × String × Json × Int) :=
  l.filterMap (fun a =>
    match a with
    | .createReviewComment b c p n => some (b, c, p, n)
    | _ => none)

/-! ## Occurrence lemmas for the `"ACTION:"` split -/

theorem occursAt_cons_succ (sep : List Char) (c : Char) (cs : List Char) (m : Nat) :
    occursAt sep (c :: cs) (m + 1) ↔ occursAt sep cs m := by
  unfold occursAt
  rw [List.drop_succ_cons]

theorem occursAt_zero (sep l : List Char) :
    occursAt sep l 0 ↔ sep.isPrefixOf l = true := by
  unfold occursAt
  rw [List.drop_zero]

theorem findOcc_some (sep : List Char) :
    ∀ (l : List Char) (j : Nat), findOcc sep l = some j →
      occursAt sep l j ∧ ∀ m, m < j → ¬ occursAt sep l m := by
  intro l
  induction l with
  | nil =>
    intro j h
    unfold findOcc at h
    split at h
    · next hpre =>
      cases h
      exact ⟨(occursAt_zero sep []).mpr hpre, fun m hm => absurd hm (Nat.not_lt_zero m)⟩
    · cases h
  | cons c cs ih =>
    intro j h
    unfold findOcc at h
    split at h
    · next hpre =>
      cases h
      exact ⟨(occursAt_zero sep (c :: cs)).mpr hpre, fun m hm => absurd hm (Nat.not_lt_zero m)⟩
    · next hpre =>
      cases hfo : findOcc sep cs with
      | none => rw [hfo] at h; cases h
      | some j2 =>
        rw [hfo] at h
        simp only [Option.map_some'] at h
        cases h
        obtain ⟨h1, h2⟩ := ih j2 hfo
        refine ⟨(occursAt_cons_succ sep c cs j2).mpr h1, ?_⟩
        intro m hm
        cases m with
        | zero =>
          intro hocc
          exact hpre ((occursAt_zero sep (c :: cs)).mp hocc)
        | succ m2 =>
          intro hocc
          exact h2 m2 (Nat.lt_of_succ_lt_succ hm) ((occursAt_cons_succ sep c cs m2).mp hocc)

theorem findOcc_none (sep : List Char) :
    ∀ (l : List Char), findOcc sep l = none → ∀ m, ¬ occursAt sep l m := by
  intro l
  induction l with
  | nil =>
    intro h m
    unfold findOcc at h
    split at h
    · cases h
    · next hpre =>
      intro hocc
      unfold occursAt at hocc
      rw [List.drop_nil] at hocc
      exact hpre hocc
  | cons c cs ih =>
    intro h m
    unfold findOcc at h
    split at h
    · cases h
    · next hpre =>
      cases hfo : findOcc sep cs with
      | some j2 => rw [hfo] at h; cases h
      | none =>
        cases m with
        | zero =>
          intro hocc
          exact hpre ((occursAt_zero sep (c :: cs)).mp hocc)
        | succ m2 =>
          intro hocc
          exact ih hfo m2 ((occursAt_cons_succ sep c cs m2).mp hocc)

/-- C4: the candidate JSON payload handed to the parser is exactly the portion
of the raw text preceding the (first) occurrence of the literal substring
`"ACTION:"`, with surrounding whitespace stripped; when `"ACTION:"` is absent
the whole stripped raw text is the payload. -/
theorem C4_candidate_payload (raw : List Char) :
    (∀ i, occursAt actionChars raw i → (∀ m, m < i → ¬ occursAt actionChars raw m) →
        candidatePayload raw = pyStrip (raw.take i)) ∧
    ((∀ i, ¬ occursAt actionChars raw i) → candidatePayload raw = pyStrip raw) := by
  constructor
  · intro i hi hmin
    unfold candidatePayload splitHead
    cases hfo : findOcc actionChars raw with
    | none => exact absurd hi (findOcc_none actionChars raw hfo i)
    | some j =>
      obtain ⟨hj, hjmin⟩ := findOcc_some actionChars raw j hfo
      have hij : j = i := by
        rcases Nat.lt_trichotomy j i with hlt | heq | hgt
        · exact absurd hj (hmin j hlt)
        · exact heq
        · exact absurd hi (hjmin i hgt)
      rw [hij]
  · intro hnone
    unfold candidatePayload splitHead
    cases hfo : findOcc actionChars raw with
    | none => rfl
    | some j => exact absurd (findOcc_some actionChars raw j hfo).1 (hnone j)

/-- Witness for C4 at a concrete raw response with one `"ACTION:"` occurrence. -/
theorem C4_candidate_payload_witness :
    candidatePayload (("X ACTION: Y").data) = pyStrip ((("X ACTION: Y").data).take 2) :=
  (C4_candidate_payload (("X ACTION: Y").data)).1 2 (by decide) (by decide)

/-- C8: the split truncates at the FIRST occurrence of `"ACTION:"`: whenever
`"ACTION:"` occurs anywhere (also inside the JSON payload itself), the
candidate payload is the stripped prefix before the earliest occurrence. -/
theorem C8_truncates_at_first_occurrence (l : List Char) (i : Nat)
    (h : occursAt actionChars l i) :
    ∃ j, j ≤ i ∧ occursAt actionChars l j ∧ (∀ m, m < j → ¬ occursAt actionChars l m) ∧
      candidatePayload l = pyStrip (l.take j) := by
  cases hfo : findOcc actionChars l with
  | none => exact absurd h (findOcc_none actionChars l hfo i)
  | some j =>
    obtain ⟨hj, hjmin⟩ := findOcc_some actionChars l j hfo
    refine ⟨j, ?_, hj, hjmin, ?_⟩
    · by_contra hgt
      push_neg at hgt
      exact hjmin i hgt h
    · unfold candidatePayload splitHead
      rw [hfo]

/-- Witness for C8: `"ACTION:"` occurs inside the JSON comment string (index
13) and again after the payload (index 27); the payload is cut at index 13. -/
theorem C8_truncates_at_first_occurrence_witness :
    ∃ j, j ≤ 27 ∧
      occursAt actionChars (("[\x7b\"comment\":\"ACTION: no\"\x7d] ACTION: READY").data) j ∧
      (∀ m, m < j →
        ¬ occursAt actionChars (("[\x7b\"comment\":\"ACTION: no\"\x7d] ACTION: READY").data) m) ∧
      candidatePayload (("[\x7b\"comment\":\"ACTION: no\"\x7d] ACTION: READY").data)
        = pyStrip ((("[\x7b\"comment\":\"ACTION: no\"\x7d] ACTION: READY").data).take j) :=
  C8_truncates_at_first_occurrence (("[\x7b\"comment\":\"ACTION: no\"\x7d] ACTION: READY").data)
    27 (by decide)

/-! ## Structure lemmas for the per-entry posting loop and the `try` block -/

theorem postLoop_filter_assign (env : ApiEnv) (commit : String) :
    ∀ (items : List Json) (k : Nat),
      (postLoop env commit items k).1.filter isAssignAction = [] := by
  intro items
  induction items with
  | nil => intro k; rfl
  | cons c rest ih =>
    intro k
    simp only [postLoop]
    cases hc : evalArgs c with
    | error e => simp
    | ok a =>
      obtain ⟨b, p, n⟩ := a
      by_cases hk : env.reviewOk k
      · simp only [hk, if_true]
        simp [List.filter_cons, isAssignAction, ih (k + 1)]
      · simp [hk]

theorem postLoop_filter_issue (env : ApiEnv) (commit : String) :
    ∀ (items : List Json) (k : Nat),
      (postLoop env commit items k).1.filter isIssueAction = [] := by
  intro items
  induction items with
  | nil => intro k; rfl
  | cons c rest ih =>
    intro k
    simp only [postLoop]
    cases hc : evalArgs c with
    | error e => simp
    | ok a =>
      obtain ⟨b, p, n⟩ := a
      by_cases hk : env.reviewOk k
      · simp only [hk, if_true]
        simp [List.filter_cons, isIssueAction, ih (k + 1)]
      · simp [hk]

theorem postLoop_success (env : ApiEnv) (commit : String) (hok : ∀ k, env.reviewOk k = true) :
    ∀ (items : List Json) (args : List (Json × Json × Int)) (k : Nat),
      items.mapM (fun c => (evalArgs c).toOption) = some args →
      postLoop env commit items k =
        (args.map (fun a => Action.createReviewComment a.1 commit a.2.1 a.2.2), none) := by
  intro items
  induction items with
  | nil =>
    intro args k h
    simp only [List.mapM_nil, pure, Option.some.injEq] at h
    rw [← h]
    rfl
  | cons c rest ih =>
    intro args k h
    rw [List.mapM_cons] at h
    cases hc : evalArgs c with
    | error e => rw [hc] at h; simp [Except.toOption] at h
    | ok a =>
      rw [hc] at h
      cases hr : rest.mapM (fun c => (evalArgs c).toOption) with
      | none => rw [hr] at h; simp [Except.toOption] at h
      | some as =>
        rw [hr] at h
        simp only [Except.toOption, Option.bind_some, Option.pure_def, Option.bind_eq_bind,
          Option.some_bind, Option.some.injEq] at h
        rw [← h]
        obtain ⟨b, p, n⟩ := a
        simp only [postLoop]
        rw [hc]
        simp only [hok k, if_true, ih as (k + 1) hr, List.map_cons]

theorem tryBranch_parse_error (env : ApiEnv) (human raw commit : String) (e : PyErr)
    (hp : jsonLoads (candidatePayload raw.data) = Except.error e) :
    tryBranch env human raw commit = ([], some e) := by
  unfold tryBranch
  rw [hp]

theorem tryBranch_post_error (env : ApiEnv) (human raw commit : String) (v : Json)
    (items : List Json) (acts : List Action) (e : PyErr)
    (hp : jsonLoads (candidatePayload raw.data) = Except.ok v)
    (hi : pyIterate v = Except.ok items)
    (hpost : postLoop env commit items 0 = (acts, some e)) :
    tryBranch env human raw commit = (acts, some e) := by
  unfold tryBranch
  simp only [hp, hi, hpost]

theorem tryBranch_post_ok (env : ApiEnv) (human raw commit : String) (v : Json)
    (items : List Json) (acts : List Action)
    (hp : jsonLoads (candidatePayload raw.data) = Except.ok v)
    (hi : pyIterate v = Except.ok items)
    (hpost : postLoop env commit items 0 = (acts, none)) :
    tryBranch env human raw commit =
      (if containsSub markerChars raw.data then
        if env.assignOk then
          if env.handoffOk then
            (acts ++ [Action.addToAssignees human,
                      Action.createIssueComment (handoffBody human)], none)
          else (acts ++ [Action.addToAssignees human], some PyErr.apiError)
        else (acts, some PyErr.apiError)
      else (acts, none)) := by
  unfold tryBranch
  simp only [hp, hi, hpost]

theorem apply_of_try_none (env : ApiEnv) (human raw commit : String) (acts : List Action)
    (h : tryBranch env human raw commit = (acts, none)) :
    apply_line_comments env human raw commit = ⟨acts, [], none⟩ := by
  unfold apply_line_comments
  rw [h]

theorem apply_of_try_some (env : ApiEnv) (human raw commit : String) (acts : List Action)
    (e : PyErr) (hfb : env.fallbackOk = true)
    (h : tryBranch env human raw commit = (acts, some e)) :
    apply_line_comments env human raw commit =
      ⟨acts ++ [Action.createIssueComment ("AI Review Error: " ++ raw)],
       ["Error parsing AI response: " ++ errText e], none⟩ := by
  unfold apply_line_comments
  rw [h]
  simp [hfb]

theorem apply_of_try_some_nofallback (env : ApiEnv) (human raw commit : String)
    (acts : List Action) (e : PyErr) (hfb : env.fallbackOk = false)
    (h : tryBranch env human raw commit = (acts, some e)) :
    apply_line_comments env human raw commit =
      ⟨acts, ["Error parsing AI response: " ++ errText e], some PyErr.apiError⟩ := by
  unfold apply_line_comments
  rw [h]
  simp [hfb]

/-! ## Claims about the marker, the fallback path and the catch-all handler -/

/-- C1 (counterexample): a raw response whose text contains the substring
`"READY_FOR_HUMAN_REVIEW"` but whose JSON payload is malformed does NOT get
the human reviewer assigned — the fallback path replaces all marker handling —
so the marker handling is not independent of whether the payload parsed. -/
theorem C1_counterexample :
    containsSub markerChars (("[,] ACTION: READY_FOR_HUMAN_REVIEW").data) = true ∧
    (apply_line_comments envAllOk "alice" "[,] ACTION: READY_FOR_HUMAN_REVIEW" "sha1").actions
      = [Action.createIssueComment ("AI Review Error: [,] ACTION: READY_FOR_HUMAN_REVIEW")] ∧
    ((apply_line_comments envAllOk "alice" "[,] ACTION: READY_FOR_HUMAN_REVIEW"
        "sha1").actions.filter isAssignAction) = [] :=
  ⟨rfl, rfl, rfl⟩

/-- C1 (amended): for every raw response containing the marker substring
`"READY_FOR_HUMAN_REVIEW"` anywhere in the raw text — a pure substring check on
the raw text, not on the extracted payload — PROVIDED the payload parsed and
every preceding remote call succeeded, the applier assigns the configured human
reviewer and posts exactly one additional plain handoff comment addressed to
that reviewer by name. -/
theorem C1_marker_assigns_on_success (env : ApiEnv) (human raw commit : String)
    (v : Json) (items : List Json) (acts : List Action)
    (hm : containsSub markerChars raw.data = true)
    (hp : jsonLoads (candidatePayload raw.data) = Except.ok v)
    (hi : pyIterate v = Except.ok items)
    (hpost : postLoop env commit items 0 = (acts, none))
    (ha : env.assignOk = true) (hh : env.handoffOk = true) :
    (apply_line_comments env human raw commit).actions
      = acts ++ [Action.addToAssignees human,
                 Action.createIssueComment (handoffBody human)] ∧
    (apply_line_comments env human raw commit).actions.filter isAssignAction
      = [Action.addToAssignees human] ∧
    (apply_line_comments env human raw commit).actions.filter isIssueAction
      = [Action.createIssueComment (handoffBody human)] := by
  have ht := tryBranch_post_ok env human raw commit v items acts hp hi hpost
  rw [hm, ha, hh] at ht
  simp only [if_true] at ht
  rw [apply_of_try_none env human raw commit _ ht]
  refine ⟨rfl, ?_, ?_⟩
  · rw [List.filter_append]
    have hacts := postLoop_filter_assign env commit items 0
    rw [hpost] at hacts
    rw [hacts]
    simp [isAssignAction]
  · rw [List.filter_append]
    have hacts := postLoop_filter_issue env commit items 0
    rw [hpost] at hacts
    rw [hacts]
    simp [isIssueAction]

/-- Witness for the amended C1 at a concrete raw response `[]` + marker. -/
theorem C1_marker_assigns_on_success_witness :
    (apply_line_comments envAllOk "alice" "[] ACTION: READY_FOR_HUMAN_REVIEW" "sha1").actions
      = [] ++ [Action.addToAssignees "alice",
               Action.createIssueComment (handoffBody "alice")] :=
  (C1_marker_assigns_on_success envAllOk "alice" "[] ACTION: READY_FOR_HUMAN_REVIEW" "sha1"
    (Json.arr []) [] [] rfl rfl rfl rfl rfl rfl).1

/-- C2: if JSON parsing of the payload fails, or any per-entry posting call
raises, the per-entry loop is abandoned (the already-performed calls remain),
exactly one fallback issue comment is posted whose body is the entire raw
response prefixed with `"AI Review Error: "`, and one diagnostic line is
printed. -/
theorem C2_fallback_on_failure (env : ApiEnv) (human raw commit : String)
    (hfb : env.fallbackOk = true)
    (h : (∃ e, jsonLoads (candidatePayload raw.data) = Except.error e) ∨
         (∃ v items acts e, jsonLoads (candidatePayload raw.data) = Except.ok v ∧
            pyIterate v = Except.ok items ∧
            postLoop env commit items 0 = (acts, some e))) :
    ∃ acts, (apply_line_comments env human raw commit).actions
        = acts ++ [Action.createIssueComment ("AI Review Error: " ++ raw)] ∧
      acts.filter isIssueAction = [] ∧
      acts.filter isAssignAction = [] ∧
      (apply_line_comments env human raw commit).stderr.length = 1 := by
  rcases h with ⟨e, hp⟩ | ⟨v, items, acts, e, hp, hi, hpost⟩
  · have ht := tryBranch_parse_error env human raw commit e hp
    rw [apply_of_try_some env human raw commit [] e hfb ht]
    exact ⟨[], rfl, rfl, rfl, rfl⟩
  · have ht := tryBranch_post_error env human raw commit v items acts e hp hi hpost
    rw [apply_of_try_some env human raw commit acts e hfb ht]
    refine ⟨acts, rfl, ?_, ?_, rfl⟩
    · have hacts := postLoop_filter_issue env commit items 0
      rw [hpost] at hacts
      exact hacts
    · have hacts := postLoop_filter_assign env commit items 0
      rw [hpost] at hacts
      exact hacts

/-- Witness for C2 at the malformed raw response `[,]`. -/
theorem C2_fallback_on_failure_witness :
    ∃ acts, (apply_line_comments envAllOk "bob" "[,]" "sha1").actions
        = acts ++ [Action.createIssueComment ("AI Review Error: [,]")] ∧
      acts.filter isIssueAction = [] ∧
      acts.filter isAssignAction = [] ∧
      (apply_line_comments envAllOk "bob" "[,]" "sha1").stderr.length = 1 :=
  C2_fallback_on_failure envAllOk "bob" "[,]" "sha1" rfl
    (Or.inl ⟨PyErr.jsonError "Expecting value", rfl⟩)

/-- C10: errors raised by the reviewer-assignment or handoff-comment calls are
caught by the same catch-all handler as parse and posting errors: the full raw
response is additionally posted as an `"AI Review Error: "` issue comment, the
diagnostic line is printed, and the already-posted line comments (`acts`) are
not undone. -/
theorem C10_assign_error_same_handler (env : ApiEnv) (human raw commit : String)
    (v : Json) (items : List Json) (acts : List Action)
    (hm : containsSub markerChars raw.data = true)
    (hp : jsonLoads (candidatePayload raw.data) = Except.ok v)
    (hi : pyIterate v = Except.ok items)
    (hpost : postLoop env commit items 0 = (acts, none))
    (hfb : env.fallbackOk = true) :
    (env.assignOk = false →
      (apply_line_comments env human raw commit).actions
        = acts ++ [Action.createIssueComment ("AI Review Error: " ++ raw)] ∧
      (apply_line_comments env human raw commit).stderr.length = 1) ∧
    (env.assignOk = true → env.handoffOk = false →
      (apply_line_comments env human raw commit).actions
        = acts ++ [Action.addToAssignees human,
                   Action.createIssueComment ("AI Review Error: " ++ raw)] ∧
      (apply_line_comments env human raw commit).stderr.length = 1) := by
  have ht := tryBranch_post_ok env human raw commit v items acts hp hi hpost
  rw [hm] at ht
  simp only [if_true] at ht
  constructor
  · intro ha
    rw [ha] at ht
    simp only [Bool.false_eq_true, if_false] at ht
    rw [apply_of_try_some env human raw commit acts PyErr.apiError hfb ht]
    exact ⟨rfl, rfl⟩
  · intro ha hh
    rw [ha, hh] at ht
    simp only [if_true, Bool.false_eq_true, if_false] at ht
    rw [apply_of_try_some env human raw commit
      (acts ++ [Action.addToAssignees human]) PyErr.apiError hfb ht]
    refine ⟨?_, rfl⟩
    simp

/-- Witness for C10: assignment fails after a successful empty posting loop. -/
theorem C10_assign_error_same_handler_witness :
    (apply_line_comments ⟨fun _ => true, false, true, true⟩ "alice"
        "[] ACTION: READY_FOR_HUMAN_REVIEW" "sha1").actions
      = [] ++ [Action.createIssueComment
          ("AI Review Error: [] ACTION: READY_FOR_HUMAN_REVIEW")] ∧
    (apply_line_comments ⟨fun _ => true, false, true, true⟩ "alice"
        "[] ACTION: READY_FOR_HUMAN_REVIEW" "sha1").stderr.length = 1 :=
  (C10_assign_error_same_handler ⟨fun _ => true, false, true, true⟩ "alice"
    "[] ACTION: READY_FOR_HUMAN_REVIEW" "sha1" (Json.arr []) [] []
    rfl rfl rfl rfl rfl).1 rfl

/-! ## Claims about the per-entry line-comment calls -/

theorem mapM_option_length {α β : Type} (f : α → Option β) :
    ∀ (l : List α) (r : List β), l.mapM f = some r → r.length = l.length := by
  intro l
  induction l with
  | nil =>
    intro r h
    simp only [List.mapM_nil, pure, Option.some.injEq] at h
    rw [← h]
    rfl
  | cons a rest ih =>
    intro r h
    rw [List.mapM_cons] at h
    cases hc : f a with
    | none => rw [hc] at h; simp at h
    | some b =>
      rw [hc] at h
      cases hr : rest.mapM f with
      | none => rw [hr] at h; simp at h
      | some bs =>
        rw [hr] at h
        simp only [Option.bind_some, Option.pure_def, Option.bind_eq_bind,
          Option.some_bind, Option.some.injEq] at h
        rw [← h, List.length_cons, List.length_cons, ih bs hr]

theorem lineCalls_append (l1 l2 : List Action) :
    lineCalls (l1 ++ l2) = lineCalls l1 ++ lineCalls l2 :=
  List.filterMap_append l1 l2 _

theorem lineCalls_map_mk (commit : String) (args : List (Json × Json × Int)) :
    lineCalls (args.map (fun a => Action.createReviewComment a.1 commit a.2.1 a.2.2))
      = args.map (fun a => (a.1, commit, a.2.1, a.2.2)) := by
  induction args with
  | nil => rfl
  | cons a rest ih =>
    simp only [List.map_cons, lineCalls, List.filterMap_cons] at ih ⊢
    rw [ih]

theorem apply_actions_shape (env : ApiEnv) (human raw commit : String) :
    (apply_line_comments env human raw commit).actions
        = (tryBranch env human raw commit).1 ∨
    (apply_line_comments env human raw commit).actions
        = (tryBranch env human raw commit).1
            ++ [Action.createIssueComment ("AI Review Error: " ++ raw)] := by
  unfold apply_line_comments
  rcases htb : tryBranch env human raw commit with ⟨acts, oe⟩
  cases oe with
  | none => exact Or.inl rfl
  | some e =>
    by_cases hfb : env.fallbackOk
    · right; simp [hfb]
    · left; simp [hfb]

theorem tryBranch_fst_extends (env : ApiEnv) (human raw commit : String) (v : Json)
    (items : List Json) (acts : List Action)
    (hp : jsonLoads (candidatePayload raw.data) = Except.ok v)
    (hi : pyIterate v = Except.ok items)
    (hpost : postLoop env commit items 0 = (acts, none)) :
    ∃ tail, (tryBranch env human raw commit).1 = acts ++ tail ∧ lineCalls tail = [] := by
  rw [tryBranch_post_ok env human raw commit v items acts hp hi hpost]
  by_cases hm : containsSub markerChars raw.data
  · by_cases ha : env.assignOk
    · by_cases hh : env.handoffOk
      · exact ⟨[Action.addToAssignees human,
                Action.createIssueComment (handoffBody human)], by simp [hm, ha, hh], rfl⟩
      · exact ⟨[Action.addToAssignees human], by simp [hm, ha, hh], rfl⟩
    · exact ⟨[], by simp [hm, ha], rfl⟩
  · exact ⟨[], by simp [hm], rfl⟩

/-- C3: when the payload parses to a list of N well-formed entries and every
`create_review_comment` call succeeds, exactly N line-comment calls are made,
the k-th carrying the k-th entry's comment body, path and line number, in the
order of the parsed list, and every call anchored to the single commit handed
over by the generator. -/
theorem C3_posts_entries_in_order (env : ApiEnv) (human raw commit : String)
    (entries : List Json) (args : List (Json × Json × Int))
    (hp : jsonLoads (candidatePayload raw.data) = Except.ok (Json.arr entries))
    (hw : entries.mapM (fun c => (evalArgs c).toOption) = some args)
    (hok : ∀ k, env.reviewOk k = true) :
    lineCalls (apply_line_comments env human raw commit).actions
      = args.map (fun a => (a.1, commit, a.2.1, a.2.2)) ∧
    (lineCalls (apply_line_comments env human raw commit).actions).length
      = entries.length := by
  have hpost := postLoop_success env commit hok entries args 0 hw
  have hi : pyIterate (Json.arr entries) = Except.ok entries := rfl
  obtain ⟨tail, htf, htl⟩ :=
    tryBranch_fst_extends env human raw commit (Json.arr entries) entries _ hp hi hpost
  have hlen : args.length = entries.length :=
    mapM_option_length (fun c => (evalArgs c).toOption) entries args hw
  have hcalls : lineCalls (apply_line_comments env human raw commit).actions
      = args.map (fun a => (a.1, commit, a.2.1, a.2.2)) := by
    rcases apply_actions_shape env human raw commit with hsh | hsh
    · rw [hsh, htf, lineCalls_append, htl, List.append_nil, lineCalls_map_mk]
    · rw [hsh, htf, List.append_assoc, lineCalls_append, lineCalls_append, htl,
        lineCalls_map_mk]
      simp [lineCalls]
  refine ⟨hcalls, ?_⟩
  rw [hcalls, List.length_map, hlen]

/-- Witness for C3 at one concrete well-formed entry. -/
theorem C3_posts_entries_in_order_witness :
    lineCalls (apply_line_comments envAllOk "h"
        "[\x7b\"path\":\"a\",\"line\":1,\"comment\":\"x\"\x7d]" "c0").actions
      = [(Json.str "x", "c0", Json.str "a", (1 : Int))] ∧
    (lineCalls (apply_line_comments envAllOk "h"
        "[\x7b\"path\":\"a\",\"line\":1,\"comment\":\"x\"\x7d]" "c0").actions).length
      = 1 :=
  C3_posts_entries_in_order envAllOk "h"
    "[\x7b\"path\":\"a\",\"line\":1,\"comment\":\"x\"\x7d]" "c0"
    [Json.obj [("path", Json.str "a"), ("line", Json.num 1), ("comment", Json.str "x")]]
    [(Json.str "x", Json.str "a", (1 : Int))] rfl rfl (fun _ => rfl)

/-! ## The `int()` coercion of the "line" field -/

theorem pyIsSpace_of_digit (c : Char) (h : c.isDigit = true) : pyIsSpace c = false := by
  by_contra hs
  rw [Bool.not_eq_false] at hs
  unfold pyIsSpace at hs
  simp only [Bool.or_eq_true, beq_iff_eq] at hs
  rcases hs with ((((h1 | h1) | h1) | h1) | h1) | h1 <;> subst h1 <;>
    exact absurd h (by decide)

theorem pyStrip_digits (ds : List Char) (h : ∀ c ∈ ds, c.isDigit = true) :
    pyStrip ds = ds := by
  unfold pyStrip
  have h1 : ds.dropWhile pyIsSpace = ds := by
    cases ds with
    | nil => rfl
    | cons c cs =>
      rw [List.dropWhile_cons, pyIsSpace_of_digit c (h c (List.mem_cons_self c cs))]
      simp
  rw [h1]
  have h2 : ds.reverse.dropWhile pyIsSpace = ds.reverse := by
    cases hr : ds.reverse with
    | nil => rfl
    | cons c cs =>
      have hc : c ∈ ds := by
        rw [← List.mem_reverse, hr]
        exact List.mem_cons_self c cs
      rw [List.dropWhile_cons, pyIsSpace_of_digit c (h c hc)]
      simp
  rw [h2, List.reverse_reverse]

theorem pyInt_digit_string (ds : List Char) (h1 : ds ≠ [])
    (h2 : ∀ c ∈ ds, c.isDigit = true) :
    pyInt (Json.str (String.mk ds)) = Except.ok ((digitsVal ds : Int)) := by
  show pyIntChars (pyStrip (String.mk ds).data) = Except.ok ((digitsVal ds : Int))
  have hdata : (String.mk ds).data = ds := rfl
  rw [hdata, pyStrip_digits ds h2]
  cases ds with
  | nil => exact absurd rfl h1
  | cons c cs =>
    have hc := h2 c (List.mem_cons_self c cs)
    have hminus : (c == '-') = false := by
      by_contra hx
      rw [Bool.not_eq_false, beq_iff_eq] at hx
      subst hx
      exact absurd hc (by decide)
    have hplus : (c == '+') = false := by
      by_contra hx
      rw [Bool.not_eq_false, beq_iff_eq] at hx
      subst hx
      exact absurd hc (by decide)
    have hall : (c :: cs).all Char.isDigit = true := by
      rw [List.all_eq_true]
      intro x hx
      exact h2 x hx
    unfold pyIntChars
    simp [hminus, hplus, hall]

/-- C9: each entry's "line" value goes through `int()` before posting: when the
coercion succeeds (in particular for every non-empty decimal-digit string,
which coerces to its numeric value), the entry is posted at that integer line;
when the coercion raises, the run diverts to the fallback path. -/
theorem C9_line_int_coercion (env : ApiEnv) (human raw commit : String)
    (p c : String) (lv : Json)
    (hok : ∀ k, env.reviewOk k = true) (hfb : env.fallbackOk = true)
    (hm : containsSub markerChars raw.data = false)
    (hp : jsonLoads (candidatePayload raw.data)
        = Except.ok (Json.arr [Json.obj [("path", Json.str p), ("line", lv),
            ("comment", Json.str c)]])) :
    (∀ n : Int, pyInt lv = Except.ok n →
      (apply_line_comments env human raw commit).actions
        = [Action.createReviewComment (Json.str c) commit (Json.str p) n]) ∧
    (∀ e : PyErr, pyInt lv = Except.error e →
      (apply_line_comments env human raw commit).actions
        = [Action.createIssueComment ("AI Review Error: " ++ raw)]) ∧
    (∀ ds : List Char, ds ≠ [] → (∀ ch ∈ ds, ch.isDigit = true) →
      pyInt (Json.str (String.mk ds)) = Except.ok ((digitsVal ds : Int))) := by
  have hargs : evalArgs (Json.obj [("path", Json.str p), ("line", lv),
      ("comment", Json.str c)])
      = (match pyInt lv with
         | .error e => .error e
         | .ok line => .ok (Json.str c, Json.str p, line)) := rfl
  have hi : pyIterate (Json.arr [Json.obj [("path", Json.str p), ("line", lv),
      ("comment", Json.str c)]])
      = Except.ok [Json.obj [("path", Json.str p), ("line", lv),
          ("comment", Json.str c)]] := rfl
  refine ⟨?_, ?_, fun ds hne hdig => pyInt_digit_string ds hne hdig⟩
  · intro n hn
    rw [hn] at hargs
    have hpost : postLoop env commit [Json.obj [("path", Json.str p), ("line", lv),
        ("comment", Json.str c)]] 0
        = ([Action.createReviewComment (Json.str c) commit (Json.str p) n], none) := by
      simp only [postLoop]
      rw [hargs]
      simp [hok 0, postLoop]
    have ht := tryBranch_post_ok env human raw commit _ _ _ hp hi hpost
    rw [hm] at ht
    simp only [Bool.false_eq_true, if_false] at ht
    rw [apply_of_try_none env human raw commit _ ht]
  · intro e he
    rw [he] at hargs
    have hpost : postLoop env commit [Json.obj [("path", Json.str p), ("line", lv),
        ("comment", Json.str c)]] 0 = ([], some e) := by
      simp only [postLoop]
      rw [hargs]
    have ht := tryBranch_post_error env human raw commit _ _ _ e hp hi hpost
    rw [apply_of_try_some env human raw commit [] e hfb ht]
    simp

/-- Witness for C9: an entry whose "line" is the digit string `"10"` is posted
at line 10. -/
theorem C9_line_int_coercion_witness :
    (apply_line_comments envAllOk "h"
        "[\x7b\"path\":\"a.dart\",\"line\":\"10\",\"comment\":\"fix\"\x7d]" "sha").actions
      = [Action.createReviewComment (Json.str "fix") "sha" (Json.str "a.dart") 10] :=
  (C9_line_int_coercion envAllOk "h"
    "[\x7b\"path\":\"a.dart\",\"line\":\"10\",\"comment\":\"fix\"\x7d]" "sha"
    "a.dart" "fix" (Json.str "10") (fun _ => rfl) rfl rfl rfl).1 10 rfl

/-! ## Claims about the generator stage -/

/-- C5: when the pull-request lookup fails, the process terminates with an
uncaught error before any language-model call is made and before the applier
stage runs. -/
theorem C5_no_llm_on_missing_pr (w : World) (env : ApiEnv) (human : String)
    (h : w.prExists = false) :
    (script w env human).llmPrompts = [] ∧
    (script w env human).applied = none ∧
    (script w env human).uncaught = some PyErr.apiError := by
  unfold script
  rw [h]
  exact ⟨rfl, rfl, rfl⟩

/-- Witness for C5 at a concrete world whose pull request does not exist. -/
theorem C5_no_llm_on_missing_pr_witness :
    (script ⟨false, "std", ["c1"], [("f", "p")], fun _ => "resp"⟩ envAllOk "h").llmPrompts
      = [] ∧
    (script ⟨false, "std", ["c1"], [("f", "p")], fun _ => "resp"⟩ envAllOk "h").applied
      = none ∧
    (script ⟨false, "std", ["c1"], [("f", "p")], fun _ => "resp"⟩ envAllOk "h").uncaught
      = some PyErr.apiError :=
  C5_no_llm_on_missing_pr ⟨false, "std", ["c1"], [("f", "p")], fun _ => "resp"⟩
    envAllOk "h" rfl

theorem diff_content_foldl (files : List (String × String)) :
    ∀ acc : String,
      files.foldl (fun acc f => acc ++ "File: " ++ f.1 ++ "\n" ++ f.2 ++ "\n\n") acc
        = acc ++ concatBlocks files := by
  induction files with
  | nil =>
    intro acc
    simp [concatBlocks, String.append_empty]
  | cons f fs ih =>
    intro acc
    rw [List.foldl_cons, ih]
    simp [concatBlocks, fileBlock, String.append_assoc]

/-- C6: the diff blob embedded in the prompt is the concatenation, over the
changed files in the order the hosting service returns them, of each file's
name followed by its patch text. -/
theorem C6_diff_blob_concatenation (files : List (String × String)) :
    diff_content files = concatBlocks files := by
  have h := diff_content_foldl files ""
  unfold diff_content
  rw [h, String.empty_append]

/-- C7: the generator returns the model's response text verbatim, paired with
the last entry of the pull request's commit history
(`pr.get_commits().reversed[0]`). -/
theorem C7_verbatim_latest_commit (w : World) (h : w.commits ≠ []) :
    get_line_specific_review w
      = Except.ok (w.modelResponse (buildPrompt w.standards (diff_content w.files)),
          w.commits.getLast h) := by
  unfold get_line_specific_review
  rw [List.head?_reverse, List.getLast?_eq_getLast_of_ne_nil h]

/-- Witness for C7 on a two-commit history: the returned commit is the last
one and the text is the model's output unchanged. -/
theorem C7_verbatim_latest_commit_witness :
    get_line_specific_review ⟨true, "std", ["c1", "c2"], [("f.dart", "patch")], fun _ => "resp"⟩
      = Except.ok ("resp", "c2") :=
  C7_verbatim_latest_commit
    ⟨true, "std", ["c1", "c2"], [("f.dart", "patch")], fun _ => "resp"⟩ (by decide)

end ReviewAgent
